import Mathlib

/-!
Shallow embedding of the top-movers ranking pipeline of the STOCK dashboard
repository (src/app.py and src/main.py), together with the rolling-mean
transform used by the moving-averages chart.

Modelling conventions:
* Close prices are rationals (`ℚ`); the Python floats in play are decimal
  literals and ratios of them, which ℚ represents exactly.
* `yf.Ticker(t).history(period="2d")` is abstracted as a `QuoteSource`:
  a function from a ticker to `Option (List ℚ)` of close prices.  `none`
  models the fetch raising an exception (caught by the per-symbol
  `try/except` in both files); `some closes` models a returned frame whose
  Close column is `closes`.
* `numpy.float64` division by zero does not raise: it yields `inf`, `-inf`
  or `nan`.  `PFloat` adjoins these values to ℚ and `npDiv` reproduces that
  behaviour; Python's `round(x, 2)` maps `inf`/`nan` to themselves and a
  finite value to (ideal, decimal) round-half-to-even, modelled by `rne`.
* `df.sort_values(by=..., ascending=...)` places NaN last in both
  directions; the sort keys `pfKeyDesc` / `pfKeyAsc` encode that.  Python's
  built-in `sorted(..., key=..., reverse=True)` (app.py line 223) is stable,
  which is embedded by sorting index-value pairs with the original position
  as the secondary key.  (`sort_values`' default quicksort leaves tie order
  unspecified; the model determinises it the same way, which no theorem
  about it relies on.)
* `pd.DataFrame([]).sort_values(by="% Change")` raises `KeyError` because
  the empty frame has no columns; app.py's `get_top_movers` is therefore
  embedded in `Except String`.
-/

/-- A Python/numpy float value as it occurs in this pipeline: a finite
rational, one of the two infinities, or NaN. -/
inductive PFloat where
  | fin : ℚ → PFloat
  | inf : PFloat
  | ninf : PFloat
  | nan : PFloat
deriving DecidableEq

/-- Round a rational to the nearest integer, halves to the even integer —
the ideal-decimal semantics of Python's built-in `round`. -/
def rne (x : ℚ) : ℤ :=
  if x - Int.floor x < 1/2 then Int.floor x
  else if 1/2 < x - Int.floor x then Int.floor x + 1
  else if Int.floor x % 2 = 0 then Int.floor x else Int.floor x + 1

/-- Python's `round(q, 2)` on a finite value: round `q` to 2 decimal places. -/
def round2 (q : ℚ) : ℚ := (rne (q * 100) : ℚ) / 100

/-- numpy float64 division: division by zero yields `inf`, `-inf` or `nan`
(with a RuntimeWarning, not an exception). -/
def npDiv (x y : ℚ) : PFloat :=
  if y = 0 then (if 0 < x then PFloat.inf else if x < 0 then PFloat.ninf else PFloat.nan)
  else PFloat.fin (x / y)

/-- Multiplication by 100 on a numpy value (`inf`, `-inf`, `nan` absorb). -/
def pfMul100 : PFloat → PFloat
  | PFloat.fin q => PFloat.fin (q * 100)
  | x => x

/-- Python's `round(x, 2)` on a numpy value: `inf`, `-inf`, `nan` are fixed. -/
def pfRound2 : PFloat → PFloat
  | PFloat.fin q => PFloat.fin (round2 q)
  | x => x

/-- The quote source: `none` = the fetch raised, `some closes` = it returned
a frame with the given Close column. -/
def QuoteSource : Type := String → Option (List ℚ)

/-- One row of the `movers` list built by `get_top_movers`
(`{'Ticker': ..., 'Previous Close': ..., 'Last Close': ..., '% Change': ...}`). -/
structure MoverRecord where
  ticker : String
  prevClose : ℚ
  lastClose : ℚ
  pctChange : PFloat
deriving DecidableEq

/-- The loop body of `get_top_movers` (app.py lines 100-114, main.py lines
96-109) for one ticker: fetch a 2-day history; on an exception skip the
symbol; if fewer than 2 rows came back skip it; otherwise take
`prev_close = Close.iloc[-2]`, `last_close = Close.iloc[-1]`, compute
`change_pct = ((last_close - prev_close) / prev_close) * 100` and append the
record with its fields rounded to 2 places. -/
def rank_symbol (src : QuoteSource) (t : String) : Option MoverRecord :=
  match src t with
  | none => none
  | some closes =>
    if 2 ≤ closes.length then
      some { ticker := t
             prevClose := round2 (closes.getD (closes.length - 2) 0)
             lastClose := round2 (closes.getD (closes.length - 1) 0)
             pctChange := pfRound2 (pfMul100 (npDiv
               (closes.getD (closes.length - 1) 0 - closes.getD (closes.length - 2) 0)
               (closes.getD (closes.length - 2) 0))) }
    else none

/-- Sort key for `sort_values(by="% Change", ascending=False)`: smaller key =
earlier row.  `inf` sorts first, finite values descending, `-inf` after all
finite values, `NaN` last (pandas `na_position="last"`). -/
def pfKeyDesc : PFloat → ℕ × ℚ
  | PFloat.inf => (0, 0)
  | PFloat.fin q => (1, -q)
  | PFloat.ninf => (2, 0)
  | PFloat.nan => (3, 0)

/-- Sort key for `sort_values(by="% Change")` (ascending): `-inf` first,
finite values ascending, `inf` after all finite values, `NaN` last. -/
def pfKeyAsc : PFloat → ℕ × ℚ
  | PFloat.ninf => (0, 0)
  | PFloat.fin q => (1, q)
  | PFloat.inf => (2, 0)
  | PFloat.nan => (3, 0)

/-- Strict lexicographic order on sort keys. -/
def qkeyLt (a b : ℕ × ℚ) : Prop := a.1 < b.1 ∨ (a.1 = b.1 ∧ a.2 < b.2)

/-- Non-strict lexicographic order on sort keys. -/
def qkeyLe (a b : ℕ × ℚ) : Prop := a.1 < b.1 ∨ (a.1 = b.1 ∧ a.2 ≤ b.2)

instance : DecidableRel qkeyLt :=
  fun a b => inferInstanceAs (Decidable (a.1 < b.1 ∨ (a.1 = b.1 ∧ a.2 < b.2)))

instance : DecidableRel qkeyLe :=
  fun a b => inferInstanceAs (Decidable (a.1 < b.1 ∨ (a.1 = b.1 ∧ a.2 ≤ b.2)))

/-- Row order of `sort_values(by="% Change", ascending=False)` on records. -/
def moverDescLe (a b : MoverRecord) : Prop :=
  qkeyLe (pfKeyDesc a.pctChange) (pfKeyDesc b.pctChange)

/-- Row order of `sort_values(by="% Change")` (ascending) on records. -/
def moverAscLe (a b : MoverRecord) : Prop :=
  qkeyLe (pfKeyAsc a.pctChange) (pfKeyAsc b.pctChange)

instance : DecidableRel moverDescLe :=
  fun a b => inferInstanceAs (Decidable (qkeyLe _ _))

instance : DecidableRel moverAscLe :=
  fun a b => inferInstanceAs (Decidable (qkeyLe _ _))

/-- app.py `get_top_movers(tickers)` (lines 98-117): build `movers` by the
per-symbol loop, wrap in a DataFrame, `sort_values(by="% Change",
ascending=False)` — which raises `KeyError` when `movers` is empty, since
the empty frame has no `% Change` column — then return
`df.head(5), df.tail(5).sort_values(by="% Change")`. -/
def get_top_movers (src : QuoteSource) (tickers : List String) :
    Except String (List MoverRecord × List MoverRecord) :=
  let movers := tickers.filterMap (rank_symbol src)
  if movers.isEmpty then
    Except.error "KeyError: % Change"
  else
    let sortedDesc := List.insertionSort moverDescLe movers
    Except.ok (sortedDesc.take 5,
      List.insertionSort moverAscLe (sortedDesc.drop (sortedDesc.length - 5)))

/-- The hard-coded universe in the body of main.py's `get_top_movers`
(lines 94-95). -/
def main_hardcoded_tickers : List String :=
  ["RELIANCE.NS", "TCS.NS", "INFY.NS", "HDFCBANK.NS", "ICICIBANK.NS",
   "HINDUNILVR.NS", "ITC.NS", "SBIN.NS", "BHARTIARTL.NS", "KOTAKBANK.NS"]

/-- main.py `get_top_movers(tickers)` (lines 92-114): same loop, but iterating
over the hard-coded list instead of the `tickers` argument, and guarded by
`if not df.empty` so the empty case returns two empty frames instead of
raising. -/
def main_get_top_movers (src : QuoteSource) (tickers : List String) :
    List MoverRecord × List MoverRecord :=
  let movers := main_hardcoded_tickers.filterMap (rank_symbol src)
  if movers.isEmpty then ([], [])
  else
    let sortedDesc := List.insertionSort moverDescLe movers
    (sortedDesc.take 5,
      List.insertionSort moverAscLe (sortedDesc.drop (sortedDesc.length - 5)))

/-- One iteration of the cards-section loop (app.py lines 214-221): fetch the
2-day history, and if at least 2 rows came back append
`(t, round(((Close[-1] - Close[-2]) / Close[-2]) * 100, 2))`; exceptions are
swallowed. -/
def gain_entry (src : QuoteSource) (t : String) : Option (String × PFloat) :=
  match src t with
  | none => none
  | some closes =>
    if 2 ≤ closes.length then
      some (t, pfRound2 (pfMul100 (npDiv
        (closes.getD (closes.length - 1) 0 - closes.getD (closes.length - 2) 0)
        (closes.getD (closes.length - 2) 0))))
    else none

/-- The `gain_data` list of the cards section (app.py lines 213-221). -/
def gain_data (src : QuoteSource) (tickers : List String) : List (String × PFloat) :=
  tickers.filterMap (gain_entry src)

/-- Row order used to embed the stable Python
`sorted(gain_data, key=lambda x: x[1], reverse=True)` on index-value pairs:
strictly greater `% change` first; on ties the original position decides
(that is Python's stability guarantee).  (CPython's comparisons involving
NaN keys give an unspecified order; the model totalises with NaN last, and
no theorem depends on that choice.) -/
def egainLe (x y : ℕ × (String × PFloat)) : Prop :=
  qkeyLt (pfKeyDesc x.2.2) (pfKeyDesc y.2.2) ∨
    (pfKeyDesc x.2.2 = pfKeyDesc y.2.2 ∧ x.1 ≤ y.1)

instance : DecidableRel egainLe :=
  fun x y => inferInstanceAs (Decidable (qkeyLt _ _ ∨ (_ = _ ∧ _ ≤ _)))

/-- `sorted(gain_data, key=lambda x: x[1], reverse=True)` (app.py line 223),
carrying original positions to witness stability. -/
def sorted_gainers_enum (l : List (String × PFloat)) : List (ℕ × (String × PFloat)) :=
  List.insertionSort egainLe l.enum

/-- `sorted_gainers` of app.py line 223. -/
def sorted_gainers (l : List (String × PFloat)) : List (String × PFloat) :=
  (sorted_gainers_enum l).map Prod.snd

/-- `top_5_gainers = sorted_gainers[:5]` (app.py line 224). -/
def top_5_gainers (l : List (String × PFloat)) : List (String × PFloat) :=
  (sorted_gainers l).take 5

/-- `top_5_losers = sorted_gainers[-5:]` (app.py line 225) — a slice of the
descending sort, not re-sorted. -/
def top_5_losers (l : List (String × PFloat)) : List (String × PFloat) :=
  (sorted_gainers l).drop ((sorted_gainers l).length - 5)

/-- The function names bound at top level in app.py by the time the final
losers block (lines 252-254) runs. -/
def app_defined_names : List String :=
  ["get_nifty_200_tickers", "fetch_stock_data", "plot_candlestick",
   "plot_volume", "plot_daily_returns", "plot_cumulative_returns",
   "plot_moving_averages", "plot_correlation_matrix", "get_top_movers",
   "generate_card"]

/-- Python name resolution at call time: using an unbound name raises
`NameError`. -/
def call_name (f : String) : Except String Unit :=
  if f ∈ app_defined_names then Except.ok ()
  else Except.error ("NameError: name " ++ f ++ " is not defined")

/-- `generate_card(symbol, change, is_up)` (app.py lines 228-237), modelled as
the data rendered into the card. -/
def generate_card (symbol : String) (change : PFloat) (is_up : Bool) :
    String × PFloat × Bool :=
  (symbol, change, is_up)

/-- The list comprehension of app.py line 253:
`[create_card(s, c, "down") for s, c in top_5_losers]`.  Each iteration
resolves the name `create_card` before calling it; over an empty list the
body is never evaluated. -/
def losers_final_block : List (String × PFloat) → Except String Unit
  | [] => Except.ok ()
  | _ :: rest => do
    let _ ← call_name "create_card"
    losers_final_block rest

/-- The top-gainers/losers cards section of app.py (lines 213-254): build
`gain_data`, sort and slice it, render the gainer and loser cards with
`generate_card` (lines 239-246), then run the duplicated final losers block
(lines 252-254) whose comprehension names the undefined `create_card`. -/
def app_cards_section (src : QuoteSource) (tickers : List String) :
    Except String (List (String × PFloat × Bool)) := do
  let gd := gain_data src tickers
  let g5 := top_5_gainers gd
  let l5 := top_5_losers gd
  let gainCards := g5.map (fun sc => generate_card sc.1 sc.2 true)
  let loseCards := l5.map (fun sc => generate_card sc.1 sc.2 false)
  let _ ← losers_final_block l5
  Except.ok (gainCards ++ loseCards)

/-- `data["Close"].rolling(window=w).mean()` (app.py line 88): a series of the
same length; entry `i` is `NaN` (here `none`) while fewer than `w` closes are
available, i.e. for `i + 1 < w`, and otherwise the arithmetic mean of closes
`i - w + 1 .. i`.  (pandas rejects `window = 0`; the claims only concern
`w ≥ 1`.) -/
def moving_average (closes : List ℚ) (w : ℕ) : List (Option ℚ) :=
  (List.range closes.length).map (fun i =>
    if i + 1 < w then none
    else some (((closes.drop (i + 1 - w)).take w).sum / (w : ℚ)))

/-- Descending `% change` row order on `gain_data` entries. -/
def pairDescLe (x y : String × PFloat) : Prop :=
  qkeyLe (pfKeyDesc x.2) (pfKeyDesc y.2)

/-- Ascending `% change` row order on `gain_data` entries. -/
def pairAscLe (x y : String × PFloat) : Prop :=
  qkeyLe (pfKeyAsc x.2) (pfKeyAsc y.2)

instance : DecidableRel pairDescLe :=
  fun x y => inferInstanceAs (Decidable (qkeyLe _ _))

instance : DecidableRel pairAscLe :=
  fun x y => inferInstanceAs (Decidable (qkeyLe _ _))

/-- A quote source realising spec Scenario A: `"AAA"` moved `100 → 90`
(−10%), every other symbol `50 → 55` (+10%). -/
def scenarioA_src : QuoteSource :=
  fun t => if t = "AAA" then some [100, 90] else some [50, 55]

/-- The record Scenario A produces for `"AAA"`. -/
def recAAA : MoverRecord :=
  { ticker := "AAA", prevClose := 100, lastClose := 90,
    pctChange := PFloat.fin (-10) }

/-- The record Scenario A produces for `"BBB"`. -/
def recBBB : MoverRecord :=
  { ticker := "BBB", prevClose := 50, lastClose := 55,
    pctChange := PFloat.fin 10 }

/-- A quote source where `"A"` gains 10% and every other symbol loses 10%. -/
def mixed_src : QuoteSource :=
  fun t => if t = "A" then some [100, 110] else some [100, 90]

/-! ### Order-theoretic helper lemmas for the sort relations -/

theorem qkeyLe_refl (a : ℕ × ℚ) : qkeyLe a a := Or.inr ⟨rfl, le_refl _⟩

theorem qkeyLe_total (a b : ℕ × ℚ) : qkeyLe a b ∨ qkeyLe b a := by
  rcases Nat.lt_trichotomy a.1 b.1 with h | h | h
  · exact Or.inl (Or.inl h)
  · rcases le_total a.2 b.2 with h2 | h2
    · exact Or.inl (Or.inr ⟨h, h2⟩)
    · exact Or.inr (Or.inr ⟨h.symm, h2⟩)
  · exact Or.inr (Or.inl h)

theorem qkeyLe_trans {a b c : ℕ × ℚ} (h1 : qkeyLe a b) (h2 : qkeyLe b c) :
    qkeyLe a c := by
  rcases h1 with h1 | ⟨h1e, h1q⟩
  · rcases h2 with h2 | ⟨h2e, _⟩
    · exact Or.inl (Nat.lt_trans h1 h2)
    · exact Or.inl (h2e ▸ h1)
  · rcases h2 with h2 | ⟨h2e, h2q⟩
    · exact Or.inl (h1e ▸ h2)
    · exact Or.inr ⟨h1e.trans h2e, le_trans h1q h2q⟩

theorem qkeyLt_trans {a b c : ℕ × ℚ} (h1 : qkeyLt a b) (h2 : qkeyLt b c) :
    qkeyLt a c := by
  rcases h1 with h1 | ⟨h1e, h1q⟩
  · rcases h2 with h2 | ⟨h2e, _⟩
    · exact Or.inl (Nat.lt_trans h1 h2)
    · exact Or.inl (h2e ▸ h1)
  · rcases h2 with h2 | ⟨h2e, h2q⟩
    · exact Or.inl (h1e ▸ h2)
    · exact Or.inr ⟨h1e.trans h2e, lt_trans h1q h2q⟩

theorem qkey_trichotomy (a b : ℕ × ℚ) : qkeyLt a b ∨ a = b ∨ qkeyLt b a := by
  rcases Nat.lt_trichotomy a.1 b.1 with h | h | h
  · exact Or.inl (Or.inl h)
  · rcases lt_trichotomy a.2 b.2 with h2 | h2 | h2
    · exact Or.inl (Or.inr ⟨h, h2⟩)
    · exact Or.inr (Or.inl (Prod.ext h h2))
    · exact Or.inr (Or.inr (Or.inr ⟨h.symm, h2⟩))
  · exact Or.inr (Or.inr (Or.inl h))

instance : IsTotal MoverRecord moverDescLe :=
  ⟨fun a b => qkeyLe_total _ _⟩

instance : IsTrans MoverRecord moverDescLe :=
  ⟨fun _ _ _ h1 h2 => qkeyLe_trans h1 h2⟩

instance : IsTotal MoverRecord moverAscLe :=
  ⟨fun a b => qkeyLe_total _ _⟩

instance : IsTrans MoverRecord moverAscLe :=
  ⟨fun _ _ _ h1 h2 => qkeyLe_trans h1 h2⟩

instance : IsTotal (ℕ × (String × PFloat)) egainLe := by
  constructor
  intro x y
  rcases qkey_trichotomy (pfKeyDesc x.2.2) (pfKeyDesc y.2.2) with h | h | h
  · exact Or.inl (Or.inl h)
  · rcases Nat.le_total x.1 y.1 with h1 | h1
    · exact Or.inl (Or.inr ⟨h, h1⟩)
    · exact Or.inr (Or.inr ⟨h.symm, h1⟩)
  · exact Or.inr (Or.inl h)

instance : IsTrans (ℕ × (String × PFloat)) egainLe := by
  constructor
  intro x y z h1 h2
  rcases h1 with h1 | ⟨h1e, h1i⟩
  · rcases h2 with h2 | ⟨h2e, _⟩
    · exact Or.inl (qkeyLt_trans h1 h2)
    · exact Or.inl (h2e ▸ h1)
  · rcases h2 with h2 | ⟨h2e, h2i⟩
    · exact Or.inl (h1e ▸ h2)
    · exact Or.inr ⟨h1e.trans h2e, Nat.le_trans h1i h2i⟩

/-! ### Arithmetic helper lemmas -/

theorem rne_intCast (n : ℤ) : rne (n : ℚ) = n := by
  unfold rne
  rw [Int.floor_intCast]
  norm_num

theorem round2_intCast (n : ℤ) : round2 (n : ℚ) = (n : ℚ) := by
  unfold round2
  have h : ((n : ℚ) * 100) = ((n * 100 : ℤ) : ℚ) := by push_cast; ring
  rw [h, rne_intCast]
  push_cast
  field_simp

theorem round2_v0 : round2 0 = 0 := by simpa using round2_intCast 0

theorem round2_v10 : round2 10 = 10 := by simpa using round2_intCast 10

theorem round2_vm10 : round2 (-10) = -10 := by simpa using round2_intCast (-10)

theorem round2_v50 : round2 50 = 50 := by simpa using round2_intCast 50

theorem round2_v55 : round2 55 = 55 := by simpa using round2_intCast 55

theorem round2_v90 : round2 90 = 90 := by simpa using round2_intCast 90

theorem round2_v100 : round2 100 = 100 := by simpa using round2_intCast 100

theorem round2_v110 : round2 110 = 110 := by simpa using round2_intCast 110

/-- If `rank_symbol` produces a record, its ticker is the symbol it was
called with. -/
theorem rank_symbol_ticker {src : QuoteSource} {t : String} {r : MoverRecord}
    (h : rank_symbol src t = some r) : r.ticker = t := by
  cases hs : src t with
  | none => simp only [rank_symbol, hs] at h; cases h
  | some closes =>
    simp only [rank_symbol, hs] at h
    by_cases hl : 2 ≤ closes.length
    · rw [if_pos hl] at h
      cases h
      rfl
    · rw [if_neg hl] at h
      cases h

/-! ### Claim theorems -/

/-- C1: for every symbol whose fetched history has at least 2 bars (and a
nonzero previous close, without which the claimed formula is undefined), the
record built for it carries
`percent_change = round2 ((last_close - previous_close) / previous_close * 100)`,
with `previous_close` the second-to-last close and `last_close` the last. -/
theorem c1_percent_change_formula (src : QuoteSource) (t : String)
    (closes : List ℚ) (hf : src t = some closes) (hl : 2 ≤ closes.length)
    (hnz : closes.getD (closes.length - 2) 0 ≠ 0) :
    rank_symbol src t = some
      { ticker := t
        prevClose := round2 (closes.getD (closes.length - 2) 0)
        lastClose := round2 (closes.getD (closes.length - 1) 0)
        pctChange := PFloat.fin (round2
          ((closes.getD (closes.length - 1) 0 - closes.getD (closes.length - 2) 0) /
            closes.getD (closes.length - 2) 0 * 100)) } := by
  simp only [rank_symbol, hf, if_pos hl]
  unfold npDiv
  rw [if_neg hnz]
  rfl

/-- C1 witness: a 2-bar history with closes `[100, 110]` yields a record with
`percent_change` exactly `10.00`. -/
theorem c1_witness :
    rank_symbol (fun _ => some [100, 110]) "AAA" = some
      { ticker := "AAA", prevClose := 100, lastClose := 110,
        pctChange := PFloat.fin 10 } := by
  have h := c1_percent_change_formula (fun _ => some [100, 110]) "AAA"
    [100, 110] rfl (by norm_num) (by norm_num)
  simp only [List.length_cons, List.length_nil] at h
  norm_num [List.getD] at h
  rw [round2_v10, round2_v100, round2_v110] at h
  exact h

/-- C2: the claim's no-crash-on-partial-failure part fails in app.py.  With
universe `["AAA", "BBB"]`, where the fetch for `"AAA"` raises (a strict
subset of the universe failing) and `"BBB"` returns a 1-bar history, every
symbol is skipped, `movers` is empty, and `sort_values` on the empty
DataFrame raises `KeyError` instead of returning a valid report. -/
theorem c2_partial_failure_crash :
    get_top_movers (fun t => if t = "BBB" then some [5] else none)
      ["AAA", "BBB"] = Except.error "KeyError: % Change" := rfl

/-- C4: the count-zero case.  app.py's `get_top_movers` raises `KeyError` on
an empty universe (for any quote source), while main.py's guarded version
returns the empty report the claim describes. -/
theorem c4_count_zero_raises :
    (∀ src : QuoteSource, get_top_movers src [] = Except.error "KeyError: % Change") ∧
    main_get_top_movers (fun _ => none) [] = ([], []) :=
  ⟨fun _ => rfl, rfl⟩

/-- C10: main.py's `get_top_movers` ignores its `tickers` parameter — any two
argument values give the same report, which is the one computed from the
hard-coded 10-symbol list. -/
theorem c10_tickers_ignored (src : QuoteSource) (t1 t2 : List String) :
    main_get_top_movers src t1 = main_get_top_movers src t2 := rfl

/-- Evaluation helper: against a source that always returns closes
`[100, 110]`, any symbol ranks to a `+10.00%` record. -/
theorem rank_symbol_const_100_110 (t : String) :
    rank_symbol (fun _ => some [100, 110]) t =
      some { ticker := t, prevClose := 100, lastClose := 110,
             pctChange := PFloat.fin 10 } := by
  simp only [rank_symbol]
  norm_num [List.getD, npDiv, pfMul100, pfRound2, round2_v10, round2_v100,
    round2_v110]

/-- C3 counterexample: a symbol whose history is `[0, 10]` — so
`previous_close = 0` — is not skipped: app.py's `get_top_movers` returns a
report containing its record, whose `% Change` is `Infinity`. -/
theorem c3_zero_prev_not_skipped :
    get_top_movers (fun _ => some [0, 10]) ["Z"] =
      Except.ok
        ([{ ticker := "Z", prevClose := 0, lastClose := 10,
            pctChange := PFloat.inf }],
         [{ ticker := "Z", prevClose := 0, lastClose := 10,
            pctChange := PFloat.inf }]) := by
  have h1 : rank_symbol (fun _ => some [0, 10]) "Z" =
      some { ticker := "Z", prevClose := 0, lastClose := 10,
             pctChange := PFloat.inf } := by
    simp only [rank_symbol]
    norm_num [List.getD, npDiv, pfMul100, pfRound2, round2_v0, round2_v10]
  simp only [get_top_movers, List.filterMap_cons, List.filterMap_nil, h1]
  simp [List.insertionSort, List.orderedInsert]

/-- C3 amended: a symbol with at least 2 bars and `previous_close = 0` is
not skipped.  The numpy division yields `inf` (positive last close), `-inf`
(negative last close) or `nan` (last close 0); the record is included with
that non-finite `% Change`, and no exception surfaces (the per-symbol
`try/except` would swallow one anyway). -/
theorem c3_amended_zero_prev_included (src : QuoteSource) (t : String)
    (closes : List ℚ) (hf : src t = some closes) (hl : 2 ≤ closes.length)
    (hz : closes.getD (closes.length - 2) 0 = 0) :
    rank_symbol src t = some
      { ticker := t
        prevClose := round2 0
        lastClose := round2 (closes.getD (closes.length - 1) 0)
        pctChange :=
          if 0 < closes.getD (closes.length - 1) 0 then PFloat.inf
          else if closes.getD (closes.length - 1) 0 < 0 then PFloat.ninf
          else PFloat.nan } := by
  simp only [rank_symbol, hf, if_pos hl, hz]
  unfold npDiv
  rw [if_pos rfl, sub_zero]
  split_ifs <;> simp [pfMul100, pfRound2]

/-- C3 amended witness: with history `[0, 10]` the produced record carries
`% Change = Infinity`. -/
theorem c3_amended_witness :
    rank_symbol (fun _ => some [0, 10]) "W" = some
      { ticker := "W", prevClose := round2 0, lastClose := round2 10,
        pctChange := PFloat.inf } := by
  have h := c3_amended_zero_prev_included (fun _ => some [0, 10]) "W"
    [0, 10] rfl (by norm_num) (by norm_num [List.getD])
  norm_num [List.getD] at h
  exact h

/-- C7 counterexample: with universe `["A", "A"]` and a working source, the
duplicated symbol is ranked twice — the movers list carries two records for
`"A"`, and both appear (twice each) in the returned report, refuting
"fetched and ranked exactly once / at most one MoverRecord". -/
theorem c7_duplicates_not_deduped :
    (["A", "A"].filterMap (rank_symbol (fun _ => some [100, 110]))) =
      [{ ticker := "A", prevClose := 100, lastClose := 110,
         pctChange := PFloat.fin 10 },
       { ticker := "A", prevClose := 100, lastClose := 110,
         pctChange := PFloat.fin 10 }] ∧
    get_top_movers (fun _ => some [100, 110]) ["A", "A"] =
      Except.ok
        ([{ ticker := "A", prevClose := 100, lastClose := 110,
            pctChange := PFloat.fin 10 },
          { ticker := "A", prevClose := 100, lastClose := 110,
            pctChange := PFloat.fin 10 }],
         [{ ticker := "A", prevClose := 100, lastClose := 110,
            pctChange := PFloat.fin 10 },
          { ticker := "A", prevClose := 100, lastClose := 110,
            pctChange := PFloat.fin 10 }]) := by
  have h1 := rank_symbol_const_100_110 "A"
  constructor
  · simp [List.filterMap_cons, h1]
  · simp only [get_top_movers, List.filterMap_cons, List.filterMap_nil, h1]
    simp [List.insertionSort, List.orderedInsert, moverDescLe, moverAscLe,
      qkeyLe, pfKeyDesc, pfKeyAsc]

/-- C7 amended: the universe is not deduplicated — each occurrence of a
symbol is fetched and ranked independently, so a symbol `t` occurring `n`
times in the universe contributes `n` records to `movers` when its fetch
succeeds with at least 2 bars, and `0` otherwise. -/
theorem c7_amended_multiplicity (src : QuoteSource) (tickers : List String)
    (t : String) :
    ((tickers.filterMap (rank_symbol src)).filter
        (fun r => r.ticker == t)).length =
      if (rank_symbol src t).isSome then tickers.count t else 0 := by
  induction tickers with
  | nil => simp
  | cons u rest ih =>
    rw [List.filterMap_cons, List.count_cons]
    by_cases he : u = t
    · subst he
      cases hu : rank_symbol src u with
      | none =>
        rw [hu] at ih
        simpa [hu] using ih
      | some r =>
        have hr : r.ticker = u := rank_symbol_ticker hu
        rw [hu] at ih
        simp only [Option.isSome_some, if_true] at ih
        simp [List.filter_cons, hr, hu, ih]
    · cases hu : rank_symbol src u with
      | none => simpa [hu, List.count_cons, he] using ih
      | some r =>
        have hr : r.ticker = u := rank_symbol_ticker hu
        simp [List.filter_cons, hr, he, ih]

/-- Evaluation helper: against a source that always returns closes
`[100, 110]`, the cards-section loop appends `(t, 10.00)` for any symbol. -/
theorem gain_entry_const_100_110 (t : String) :
    gain_entry (fun _ => some [100, 110]) t = some (t, PFloat.fin 10) := by
  simp only [gain_entry]
  norm_num [List.getD, npDiv, pfMul100, pfRound2, round2_v10]

/-- C5 counterexample: two symbols tie at `+10.00%` with the universe listing
`"B"` before `"A"`.  `sorted(gain_data, key=..., reverse=True)` keeps them in
universe order — `"B"` first — although `"A" < "B"`, refuting the claimed
ascending-Symbol tie-break. -/
theorem c5_tie_not_broken_by_symbol :
    sorted_gainers (gain_data (fun _ => some [100, 110]) ["B", "A"]) =
      [("B", PFloat.fin 10), ("A", PFloat.fin 10)] ∧ "A" < "B" := by
  refine ⟨?_, ?_⟩
  · have hB := gain_entry_const_100_110 "B"
    have hA := gain_entry_const_100_110 "A"
    simp only [gain_data, List.filterMap_cons, List.filterMap_nil, hB, hA]
    simp [sorted_gainers, sorted_gainers_enum, List.enum, List.enumFrom,
      List.insertionSort, List.orderedInsert, egainLe, qkeyLt, pfKeyDesc]
  · rw [String.lt_iff_toList_lt]
    decide

/-- C5 amended: the collected records are sorted descending by
`percent_change` with ties left in the original universe order (the Python
sort is stable), so the order is deterministic for a fixed universe
sequence; there is no ascending-Symbol tie-break.  `sorted_gainers_enum`
carries each record's original position: the result is a permutation of the
input and is sorted under `egainLe` — strictly greater percent change first,
ties in ascending original position. -/
theorem c5_amended_stable_descending (l : List (String × PFloat)) :
    List.Perm (sorted_gainers l) l ∧
    List.Sorted egainLe (sorted_gainers_enum l) := by
  constructor
  · have h : List.Perm (sorted_gainers_enum l) l.enum :=
      List.perm_insertionSort _ _
    have h2 := h.map Prod.snd
    rw [List.enum_map_snd] at h2
    simpa [sorted_gainers] using h2
  · exact List.sorted_insertionSort egainLe l.enum

/-- `sorted_gainers` is a rearrangement: it preserves length. -/
theorem sorted_gainers_length (l : List (String × PFloat)) :
    (sorted_gainers l).length = l.length := by
  unfold sorted_gainers sorted_gainers_enum
  rw [List.length_map, (List.perm_insertionSort egainLe l.enum).length_eq,
    List.enum_length]

/-- If any record was collected, the `[-5:]` slice is nonempty. -/
theorem top_5_losers_ne_nil {l : List (String × PFloat)} (h : l ≠ []) :
    top_5_losers l ≠ [] := by
  unfold top_5_losers
  have hlen := sorted_gainers_length l
  have hl : 0 < l.length := List.length_pos.mpr h
  intro hnil
  have hlen2 := congrArg List.length hnil
  rw [List.length_drop, hlen] at hlen2
  simp only [List.length_nil] at hlen2
  omega

/-- C9 counterexample: when every fetch fails, `gain_data` is empty, the
final losers comprehension iterates zero times, the name `create_card` is
never evaluated, and the cards section completes without a `NameError` —
refuting "every top-level execution … regardless of input data". -/
theorem c9_empty_gain_data_no_error :
    app_cards_section (fun _ => none) ["X", "Y"] = Except.ok [] := rfl

/-- C9 amended: the final losers block (app.py lines 252-254) raises
`NameError` on the undefined `create_card` exactly when at least one symbol
produced a `gain_data` record (so `top_5_losers` is nonempty); with no
records the comprehension body never runs and no error is raised. -/
theorem c9_amended_nameerror_iff_records (src : QuoteSource)
    (tickers : List String) (h : gain_data src tickers ≠ []) :
    app_cards_section src tickers =
      Except.error "NameError: name create_card is not defined" := by
  have h5 : top_5_losers (gain_data src tickers) ≠ [] := top_5_losers_ne_nil h
  obtain ⟨a, rest, hcons⟩ := List.exists_cons_of_ne_nil h5
  have hblock : losers_final_block (a :: rest) =
      Except.error "NameError: name create_card is not defined" := by
    have hcall : call_name "create_card" =
        Except.error "NameError: name create_card is not defined" := rfl
    simp only [losers_final_block, hcall]
    rfl
  unfold app_cards_section
  simp only [hcons, hblock]
  rfl

/-- C9 amended witness: one successfully ranked symbol makes the cards
section end in the `create_card` `NameError`. -/
theorem c9_amended_witness :
    app_cards_section (fun _ => some [100, 110]) ["X"] =
      Except.error "NameError: name create_card is not defined" := by
  apply c9_amended_nameerror_iff_records
  have hX := gain_entry_const_100_110 "X"
  simp [gain_data, hX]

theorem qkeyLt_le {a b : ℕ × ℚ} (h : qkeyLt a b) : qkeyLe a b := by
  rcases h with h | ⟨he, hq⟩
  · exact Or.inl h
  · exact Or.inr ⟨he, le_of_lt hq⟩

theorem egainLe_pairDescLe {x y : ℕ × (String × PFloat)} (h : egainLe x y) :
    pairDescLe x.2 y.2 := by
  rcases h with h | ⟨he, _⟩
  · exact qkeyLt_le h
  · exact Or.inr ⟨congrArg Prod.fst he, le_of_eq (congrArg Prod.snd he)⟩

/-- The descending cards-section sort is pairwise non-increasing in
`% change`. -/
theorem sorted_gainers_pairwise (l : List (String × PFloat)) :
    List.Pairwise pairDescLe (sorted_gainers l) := by
  have hs : List.Pairwise egainLe (sorted_gainers_enum l) :=
    List.sorted_insertionSort egainLe l.enum
  unfold sorted_gainers
  exact hs.map Prod.snd (fun x y hxy => egainLe_pairDescLe hxy)

/-- C6 counterexample: the cards-section losers list (app.py line 225,
`sorted_gainers[-5:]`) is not re-sorted ascending.  With `"A"` at +10% and
`"B"` at −10% it is `[("A", 10), ("B", -10)]`, whose percent changes
decrease — its first pair is not `≤` its second in the ascending row
order. -/
theorem c6_cards_losers_not_ascending :
    top_5_losers (gain_data mixed_src ["A", "B"]) =
      [("A", PFloat.fin 10), ("B", PFloat.fin (-10))] ∧
    ¬ pairAscLe ("A", PFloat.fin 10) ("B", PFloat.fin (-10)) := by
  constructor
  · have hsA : mixed_src "A" = some [100, 110] := rfl
    have hsB : mixed_src "B" = some [100, 90] := rfl
    have hA : gain_entry mixed_src "A" = some ("A", PFloat.fin 10) := by
      simp only [gain_entry, hsA]
      norm_num [List.getD, npDiv, pfMul100, pfRound2, round2_v10]
    have hB : gain_entry mixed_src "B" = some ("B", PFloat.fin (-10)) := by
      simp only [gain_entry, hsB]
      norm_num [List.getD, npDiv, pfMul100, pfRound2, round2_vm10]
    simp only [gain_data, List.filterMap_cons, List.filterMap_nil, hA, hB]
    simp [top_5_losers, sorted_gainers, sorted_gainers_enum, List.enum,
      List.enumFrom, List.insertionSort, List.orderedInsert, egainLe,
      qkeyLt, pfKeyDesc]
  · decide

/-- C6 amended: in `get_top_movers` the gainers list is the first
`min(5, count)` rows of the descending sort and is non-increasing in
`% change`, and the losers list is the last `min(5, count)` rows re-sorted
ascending, hence non-decreasing; but the cards-section `top_5_losers`
(app.py line 225) is only the `[-5:]` slice of the descending sort, left in
non-increasing order. -/
theorem c6_amended_ordering :
    (∀ (src : QuoteSource) (tickers : List String) (g l : List MoverRecord),
      get_top_movers src tickers = Except.ok (g, l) →
        g = (List.insertionSort moverDescLe
              (tickers.filterMap (rank_symbol src))).take 5 ∧
        List.Pairwise moverDescLe g ∧
        List.Perm l
          ((List.insertionSort moverDescLe
              (tickers.filterMap (rank_symbol src))).drop
            ((List.insertionSort moverDescLe
                (tickers.filterMap (rank_symbol src))).length - 5)) ∧
        List.Pairwise moverAscLe l) ∧
    (∀ gd : List (String × PFloat),
      List.Pairwise pairDescLe (top_5_losers gd)) := by
  constructor
  · intro src tickers g l h
    cases hm : (tickers.filterMap (rank_symbol src)).isEmpty with
    | true => simp [get_top_movers, hm] at h
    | false =>
      simp only [get_top_movers, hm, Bool.false_eq_true, if_false,
        Except.ok.injEq, Prod.mk.injEq] at h
      obtain ⟨hg, hl2⟩ := h
      subst hg
      subst hl2
      refine ⟨rfl, ?_, ?_, ?_⟩
      · exact List.Pairwise.sublist (List.take_sublist _ _)
          (List.sorted_insertionSort moverDescLe _)
      · exact List.perm_insertionSort _ _
      · exact List.sorted_insertionSort moverAscLe _
  · intro gd
    exact List.Pairwise.sublist (List.drop_sublist _ _)
      (sorted_gainers_pairwise gd)

/-- C6 amended witness: spec Scenario A.  Universe `["AAA", "BBB"]`,
`"AAA"` −10%, `"BBB"` +10%: `get_top_movers` returns
gainers `[BBB, AAA]` (non-increasing) and losers `[AAA, BBB]`
(re-sorted ascending); and a concrete cards-section losers slice is
non-increasing. -/
theorem c6_amended_ordering_witness :
    ([recBBB, recAAA] =
        (List.insertionSort moverDescLe
          (["AAA", "BBB"].filterMap (rank_symbol scenarioA_src))).take 5 ∧
      List.Pairwise moverDescLe [recBBB, recAAA] ∧
      List.Perm [recAAA, recBBB]
        ((List.insertionSort moverDescLe
            (["AAA", "BBB"].filterMap (rank_symbol scenarioA_src))).drop
          ((List.insertionSort moverDescLe
              (["AAA", "BBB"].filterMap (rank_symbol scenarioA_src))).length - 5)) ∧
      List.Pairwise moverAscLe [recAAA, recBBB]) ∧
    List.Pairwise pairDescLe (top_5_losers [("X", PFloat.fin 10)]) := by
  have hsA : scenarioA_src "AAA" = some [100, 90] := rfl
  have hsB : scenarioA_src "BBB" = some [50, 55] := rfl
  have hA : rank_symbol scenarioA_src "AAA" = some recAAA := by
    simp only [rank_symbol, hsA]
    norm_num [List.getD, npDiv, pfMul100, pfRound2, round2_v90, round2_v100,
      round2_vm10, recAAA]
  have hB : rank_symbol scenarioA_src "BBB" = some recBBB := by
    simp only [rank_symbol, hsB]
    norm_num [List.getD, npDiv, pfMul100, pfRound2, round2_v50, round2_v55,
      round2_v10, recBBB]
  have h_eval : get_top_movers scenarioA_src ["AAA", "BBB"] =
      Except.ok ([recBBB, recAAA], [recAAA, recBBB]) := by
    simp only [get_top_movers, List.filterMap_cons, List.filterMap_nil, hA, hB]
    norm_num [List.insertionSort, List.orderedInsert, moverDescLe, moverAscLe,
      qkeyLe, pfKeyDesc, pfKeyAsc, recAAA, recBBB]
  exact ⟨c6_amended_ordering.1 scenarioA_src ["AAA", "BBB"]
      [recBBB, recAAA] [recAAA, recBBB] h_eval,
    c6_amended_ordering.2 [("X", PFloat.fin 10)]⟩

/-- The rolling window `closes[i-w+1 .. i]`, written as a slice, is the same
sequence as reading off the `w` entries starting at `i-w+1`. -/
theorem take_drop_eq_map_range (l : List ℚ) (s w : ℕ) (h : s + w ≤ l.length) :
    (l.drop s).take w = (List.range w).map (fun j => l.getD (s + j) 0) := by
  apply List.ext_getElem?
  intro n
  rw [List.getElem?_take, List.getElem?_map, List.getElem?_drop]
  by_cases hn : n < w
  · rw [if_pos hn, List.getElem?_range hn]
    have hsn : s + n < l.length := by omega
    rw [List.getElem?_eq_getElem hsn]
    simp [List.getD_eq_getElem?_getD, List.getElem?_eq_getElem hsn]
  · rw [if_neg hn]
    have hnone : (List.range w)[n]? = none := by
      apply List.getElem?_eq_none
      simpa [List.length_range] using Nat.le_of_not_lt hn
    rw [hnone]
    rfl

/-- C8: `moving_average` returns a sequence of the same length as the input;
entry `i` is undefined (`none`, pandas `NaN`) for `i < w - 1`, i.e.
`i + 1 < w`, and otherwise the arithmetic mean of closes `i-w+1 .. i`. -/
theorem c8_moving_average_spec (closes : List ℚ) (w : ℕ) (hw : 1 ≤ w) :
    (moving_average closes w).length = closes.length ∧
    (∀ i, i < closes.length →
      (i + 1 < w → (moving_average closes w).getD i none = none) ∧
      (w ≤ i + 1 → (moving_average closes w).getD i none =
        some ((((List.range w).map
            (fun j => closes.getD (i + 1 - w + j) 0)).sum) / (w : ℚ)))) := by
  constructor
  · simp [moving_average]
  · intro i hi
    have hgd : (moving_average closes w).getD i none =
        if i + 1 < w then none
        else some (((closes.drop (i + 1 - w)).take w).sum / (w : ℚ)) := by
      unfold moving_average
      rw [List.getD_eq_getElem?_getD, List.getElem?_map, List.getElem?_range hi]
      rfl
    constructor
    · intro hlt
      rw [hgd, if_pos hlt]
    · intro hge
      rw [hgd, if_neg (by omega),
        take_drop_eq_map_range closes (i + 1 - w) w (by omega)]

/-- C8 witness: Scenario C — `moving_average` with window 3 over closes
`[10, 20, 30, 40]` yields `[undefined, undefined, 20.0, 30.0]`. -/
theorem c8_moving_average_witness :
    ((moving_average [10, 20, 30, 40] 3).length =
        ([10, 20, 30, 40] : List ℚ).length ∧
     (∀ i, i < ([10, 20, 30, 40] : List ℚ).length →
       (i + 1 < 3 → (moving_average [10, 20, 30, 40] 3).getD i none = none) ∧
       (3 ≤ i + 1 → (moving_average [10, 20, 30, 40] 3).getD i none =
         some ((((List.range 3).map
             (fun j => ([10, 20, 30, 40] : List ℚ).getD (i + 1 - 3 + j) 0)).sum) /
           ((3 : ℕ) : ℚ))))) ∧
    moving_average [10, 20, 30, 40] 3 = [none, none, some 20, some 30] := by
  constructor
  · exact c8_moving_average_spec [10, 20, 30, 40] 3 (by norm_num)
  · have h0 : List.range (([10, 20, 30, 40] : List ℚ).length) = [0, 1, 2, 3] := rfl
    simp only [moving_average, h0, List.map_cons, List.map_nil]
    norm_num [List.getD]
